import Mathlib

/-!
# Verification of the netra-profiler core

A shallow embedding of the multi-pass statistics engine and the rule-based
diagnostic engine of `netra_profiler` (files `core.py`, `engine.py`,
`alerts.py`), together with theorems settling the specification claims.

Conventions of the embedding:
* Python floats are modelled as exact rationals (`ℚ`); the only genuinely
  irrational computation (the Pearson denominator `sqrt(var_x)·sqrt(var_y)`)
  lives in `ℝ`.
* Python `None` / missing dictionary keys are modelled with `Option`.
* Exceptions are modelled with `Except String`.
* The string-keyed profile dictionary is modelled structurally: the
  per-column metric keys `{col}_{metric}` become fields of `ColumnProfile`,
  key absence becomes `none`.
-/

namespace NetraProfiler

/-- A scalar Python value as it can appear in a profile record
(top-K entries hold strings, numbers or `None`). -/
inductive Value where
  | vnull
  | vint (i : Int)
  | vfloat (q : ℚ)
  | vstr (s : String)
deriving DecidableEq, Repr

/-- Python's `item["value"] == 0 or item["value"] == 0.0` from
`DiagnosticEngine._check_zeros`: numeric zero compares equal to both `0`
and `0.0`; strings and `None` compare equal to neither. -/
def Value.pyEqZero : Value → Bool
  | .vint i => i == 0
  | .vfloat q => q == 0
  | _ => false

/-- `AlertLevel` from `alerts.py`. -/
inductive AlertLevel where
  | critical
  | warning
  | info
deriving DecidableEq, Repr

/-- `Alert` dataclass from `alerts.py`. -/
structure Alert where
  column : String
  alert_type : String
  level : AlertLevel
  message : String
  value : Option ℚ := none
deriving DecidableEq, Repr

/-- `DiagnosticConfig` from `alerts.py` (default thresholds). -/
structure DiagnosticConfig where
  NULL_CRITICAL_THRESHOLD : ℚ := 95 / 100
  NULL_WARNING_THRESHOLD : ℚ := 50 / 100
  SKEW_THRESHOLD : ℚ := 2
  ZERO_INFLATED_THRESHOLD : ℚ := 10 / 100
  HIGH_CARDINALITY_THRESHOLD : Nat := 10000
  HIGH_CORRELATION_THRESHOLD : ℚ := 99 / 100
  ID_UNIQUENESS_THRESHOLD : ℚ := 99 / 100
  MIN_ROWS_FOR_ID_CHECK : Nat := 100
  POSSIBLE_NUMERIC_CHECK_COUNT : Nat := 5

/-- The module-level `config = DiagnosticConfig()` of `alerts.py`. -/
def config : DiagnosticConfig := {}

/-- One entry of a `{col}_top_k` list: a dict `{"value": ..., "count": ...}`. -/
structure TopKItem where
  value : Value
  count : Nat
deriving DecidableEq, Repr

/-- The per-column slice of the profile dictionary, as read by the
diagnostic engine.  `null_count` is read with default `0`
(`profile.get(f"{col}_null_count", 0)`); the other metrics are read with
default `None`.  `mean_present` records whether the key `{col}_mean`
exists (the engine's numeric-dtype hint). -/
structure ColumnProfile where
  name : String
  null_count : Nat := 0
  n_unique : Option Nat := none
  mean_present : Bool := false
  skew : Option ℚ := none
  top_k : Option (List TopKItem) := none
deriving DecidableEq, Repr

namespace DiagnosticEngine

/-- `DiagnosticEngine._check_nulls`: ratio `null_count / row_count` against
the two thresholds; `> 0.95` gives CRITICAL `EMPTY_COLUMN`, else `> 0.50`
gives CRITICAL `HIGH_NULLS`. -/
def check_nulls (row_count : Nat) (c : ColumnProfile) : List Alert :=
  let null_percentage : ℚ := (c.null_count : ℚ) / (row_count : ℚ)
  if null_percentage > config.NULL_CRITICAL_THRESHOLD then
    [{ column := c.name, alert_type := "EMPTY_COLUMN", level := .critical,
       message := "Column is mostly empty. It likely contains no useful information.",
       value := some null_percentage }]
  else if null_percentage > config.NULL_WARNING_THRESHOLD then
    [{ column := c.name, alert_type := "HIGH_NULLS", level := .critical,
       message := "Column is mostly empty. Imputation may be difficult.",
       value := some null_percentage }]
  else []

/-- `DiagnosticEngine._check_constant`: CRITICAL `CONSTANT` when the
distinct-count estimate is exactly 1; independently INFO `ALL_DISTINCT`
when `n_unique` is truthy, `row_count > 100` and
`n_unique > row_count * 0.99`. -/
def check_constant (row_count : Nat) (c : ColumnProfile) : List Alert :=
  (match c.n_unique with
   | some n =>
     if n = 1 then
       [{ column := c.name, alert_type := "CONSTANT", level := .critical,
          message := "Column has only 1 unique value. It adds no variance to the dataset.",
          value := some 1 }]
     else []
   | none => []) ++
  (match c.n_unique with
   | some n =>
     if n ≠ 0 ∧ row_count > config.MIN_ROWS_FOR_ID_CHECK ∧
        (n : ℚ) > (row_count : ℚ) * config.ID_UNIQUENESS_THRESHOLD then
       [{ column := c.name, alert_type := "ALL_DISTINCT", level := .info,
          message := "Column is almost fully distinct. Likely a Primary Key or ID.",
          value := some (n : ℚ) }]
     else []
   | none => [])

/-- `DiagnosticEngine._check_cardinality`: WARNING `HIGH_CARDINALITY` for a
column whose dtype hint is String (no `{col}_mean` key) with a truthy
`n_unique` strictly between 10000 and `row_count`. -/
def check_cardinality (row_count : Nat) (c : ColumnProfile) : List Alert :=
  match c.n_unique with
  | some n =>
    if ¬ c.mean_present ∧ n ≠ 0 ∧ n > config.HIGH_CARDINALITY_THRESHOLD ∧
       n < row_count then
      [{ column := c.name, alert_type := "HIGH_CARDINALITY", level := .warning,
         message := "High cardinality. Avoid One-Hot Encoding.",
         value := some (n : ℚ) }]
    else []
  | none => []

/-- `DiagnosticEngine._check_skew`: WARNING `SKEWED` when the skew key is
present and its absolute value exceeds 2.0. -/
def check_skew (c : ColumnProfile) : List Alert :=
  match c.skew with
  | some s =>
    if |s| > config.SKEW_THRESHOLD then
      [{ column := c.name, alert_type := "SKEWED", level := .warning,
         message := "Distribution is highly skewed. Linear models may require transformation.",
         value := some s }]
    else []
  | none => []

/-- The alert appended by `DiagnosticEngine._check_zeros` when it fires. -/
def zeroInflatedAlert (name : String) (zero_percentage : ℚ) : Alert :=
  { column := name, alert_type := "ZERO_INFLATED", level := .warning,
    message := "Column is significantly zeros. Check if zero represents missing data.",
    value := some zero_percentage }

/-- The `for item in top_k` loop of `DiagnosticEngine._check_zeros`: at the
first item whose value compares equal to Python `0`/`0.0`, optionally emit
`ZERO_INFLATED` and `break` (later items are never inspected). -/
def check_zeros_loop (row_count : Nat) (name : String) :
    List TopKItem → List Alert
  | [] => []
  | item :: rest =>
    if item.value.pyEqZero then
      (if (item.count : ℚ) / (row_count : ℚ) > config.ZERO_INFLATED_THRESHOLD then
        [zeroInflatedAlert name ((item.count : ℚ) / (row_count : ℚ))]
      else [])
    else check_zeros_loop row_count name rest

/-- `DiagnosticEngine._check_zeros`: guard `if top_k and isinstance(top_k, list)`
(a missing key or an empty list produces nothing), then the scan loop. -/
def check_zeros (row_count : Nat) (c : ColumnProfile) : List Alert :=
  match c.top_k with
  | some l => check_zeros_loop row_count c.name l
  | none => []

/-- `DiagnosticEngine._check_possible_numeric`, parametric in the semantics
`floatParses` of the Python builtin `float(value)` succeeding (an external
dependency of the engine; no claim depends on its exact behavior):
skip numeric columns, take the first 5 non-null top-K values, and emit INFO
`POSSIBLE_NUMERIC` iff the sample is non-empty and fully parseable. -/
def check_possible_numeric (floatParses : Value → Bool) (c : ColumnProfile) :
    List Alert :=
  if c.mean_present then []
  else
    match c.top_k with
    | none => []
    | some l =>
      if l = [] then []
      else
        let sample := (l.take config.POSSIBLE_NUMERIC_CHECK_COUNT).filterMap
          (fun item => if item.value = .vnull then none else some item.value)
        if sample = [] then []
        else if sample.all floatParses then
          [{ column := c.name, alert_type := "POSSIBLE_NUMERIC", level := .info,
             message := "Top values look like numbers. Consider casting to Integer/Float.",
             value := none }]
        else []

end DiagnosticEngine

/-- One row of a serialized correlation matrix
(`[{"column": "age", "age": 1.0, "income": 0.8}, ...]` from `core.py`):
the `"column"` label key is held in `column`, the remaining
column-name/value items in `entries` (a missing/NaN-filled correlation
is `none`). -/
structure CorrRow where
  column : Option String
  entries : List (String × Option ℚ)
deriving DecidableEq, Repr

/-- The `correlations` substructure read by
`DiagnosticEngine._check_correlations` via `correlations.get(method, [])`:
a missing matrix is the empty list. -/
structure Correlations where
  pearson : List CorrRow := []
  spearman : List CorrRow := []
deriving DecidableEq, Repr

/-- The profile record as read by the diagnostic engine:
`table_row_count` (missing key modelled as `none`, read with default 0),
the per-column metric keys, and the `correlations` substructure. -/
structure DiagProfile where
  table_row_count : Option Nat := none
  columns : List ColumnProfile := []
  correlations : Correlations := {}

namespace DiagnosticEngine

/-- Python `tuple(sorted((primary_column, comparison_column)))`:
the canonical (lexicographically sorted) unordered pair. -/
def canonPair (a b : String) : String × String :=
  if a < b then (a, b) else (b, a)

/-- The mutable scan state of `_check_correlations` for one matrix:
the `checked_pairs` set (as a list of canonical pairs) and the alerts
appended so far. -/
structure CorrScanState where
  checked : List (String × String)
  alerts : List Alert
deriving DecidableEq, Repr

/-- The body of the inner `for comparison_column, value in row.items()` loop
of `_check_correlations`: skip the diagonal, skip missing values, skip
already-checked pairs; on `|value| > 0.99` append a WARNING
`HIGH_CORRELATION` alert labeled `primary <-> comparison` and mark the
canonical pair as checked.  (The skip of the `"column"` label key is
structural: `CorrRow.entries` holds only the data items.) -/
def scanEntry (primary : String) (st : CorrScanState)
    (e : String × Option ℚ) : CorrScanState :=
  if e.1 = primary then st
  else
    match e.2 with
    | none => st
    | some value =>
      let pair := canonPair primary e.1
      if pair ∈ st.checked then st
      else if |value| > config.HIGH_CORRELATION_THRESHOLD then
        { checked := pair :: st.checked,
          alerts := st.alerts ++
            [{ column := primary ++ " <-> " ++ e.1,
               alert_type := "HIGH_CORRELATION", level := .warning,
               message := "Columns are highly correlated. They contain redundant information.",
               value := some value }] }
      else st

/-- The outer `for row in correlation_matrix` loop body of
`_check_correlations`: rows with a falsy `"column"` label (missing or empty
string) are skipped. -/
def scanRow (st : CorrScanState) (row : CorrRow) : CorrScanState :=
  match row.column with
  | none => st
  | some primary =>
    if primary = "" then st
    else row.entries.foldl (scanEntry primary) st

/-- The scan of one matrix by `_check_correlations`, starting from a fresh
`checked_pairs` set. -/
def scanMatrixState (m : List CorrRow) : CorrScanState :=
  m.foldl scanRow { checked := [], alerts := [] }

/-- `DiagnosticEngine._check_correlations`: scan the pearson matrix and then
the spearman matrix, each with its own fresh `checked_pairs` set, appending
all alerts to the engine's list. -/
def check_correlations (corrs : Correlations) : List Alert :=
  (scanMatrixState corrs.pearson).alerts ++ (scanMatrixState corrs.spearman).alerts

/-- The relation between an emitted `HIGH_CORRELATION` alert and the
canonical pair recorded for it in `checked_pairs`: the alert is a WARNING
labeled with the pair's two column names around `" <-> "`. -/
def alertPairRel (al : Alert) (pr : String × String) : Prop :=
  al.alert_type = "HIGH_CORRELATION" ∧ al.level = .warning ∧
  (al.column = pr.1 ++ " <-> " ++ pr.2 ∨ al.column = pr.2 ++ " <-> " ++ pr.1)

/-- Invariant of the `_check_correlations` scan of one matrix: the checked
pairs are pairwise distinct, and the emitted alerts correspond one-to-one
(in firing order) to the checked pairs. -/
def ScanInv (st : CorrScanState) : Prop :=
  st.checked.Nodup ∧ st.alerts.length = st.checked.length ∧
  List.Forall₂ alertPairRel st.alerts st.checked.reverse

/-- `DiagnosticEngine.run`: `row_count = profile.get("table_row_count", 0)`;
if it is 0 return no alerts; otherwise run the six per-column checks for
every discovered column, then the global correlation check. -/
def run (floatParses : Value → Bool) (p : DiagProfile) : List Alert :=
  let row_count := p.table_row_count.getD 0
  if row_count = 0 then []
  else
    (p.columns.foldl (fun acc c =>
      acc ++ check_nulls row_count c ++ check_constant row_count c ++
        check_cardinality row_count c ++ check_skew c ++
        check_zeros row_count c ++ check_possible_numeric floatParses c) []) ++
    check_correlations p.correlations

end DiagnosticEngine

/-! ## The orchestrator (`Profiler.profile` in `core.py`)

Each pass body is modelled by its abstract outcome: a result, or the
exception it raises (`Except String`).  The histogram pass carries
per-column sub-results, each of which may itself fail (the inner `try` of
`_run_histogram_pass`).  The top-K pass writes each successfully collected
column before an optional exception aborts the rest of its loop (its single
`try` wraps the whole loop, so keys written before the exception persist).
The correlation pass, on success, may or may not set the `correlations` key
and the `correlation_method` metadata (see `correlationPassDecision`). -/

/-- The abstract outcomes of the five pass bodies driven by
`Profiler.profile`. -/
structure PassOutcomes (S H T C A : Type) where
  scalar : Except String S
  histogram : Except String (List (String × Except String H))
  top_k : List (String × T) × Option String
  correlation : Except String (Option C × Option String)
  diagnostics : Except String A

/-- The profile record assembled by `Profiler.profile`: the scalar-pass
result, the later passes' keys (an absent key is `none` / missing from the
association list), and the `_meta.warnings` list. -/
structure ProfileRecord (S H T C A : Type) where
  scalars : S
  histograms : List (String × H) := []
  top_k : List (String × T) := []
  correlations : Option C := none
  correlation_method : Option String := none
  alerts : Option A := none
  warnings : List String := []

/-- The per-column result handling inside `_run_histogram_pass`: a
successful column writes its `{col}_histogram` key, a failing one appends a
warning. -/
def applyHistogramColumn {S H T C A : Type} (r : ProfileRecord S H T C A)
    (res : String × Except String H) : ProfileRecord S H T C A :=
  match res.2 with
  | .ok h => { r with histograms := r.histograms ++ [(res.1, h)] }
  | .error e =>
    { r with warnings := r.warnings ++
        ["Histogram generation failed for column " ++ res.1 ++ ": " ++ e] }

/-- `Profiler._run_histogram_pass`: the surrounding `try`/`except` appends a
warning on a batch failure; otherwise each per-column result is handled by
`applyHistogramColumn`. -/
def applyHistogramPass {S H T C A : Type}
    (out : Except String (List (String × Except String H)))
    (r : ProfileRecord S H T C A) : ProfileRecord S H T C A :=
  match out with
  | .error e =>
    { r with warnings := r.warnings ++ ["Histogram generation failed: " ++ e] }
  | .ok results => results.foldl applyHistogramColumn r

/-- `Profiler._run_top_k_pass`: the columns collected before an optional
exception are written; the exception, if any, becomes a warning. -/
def applyTopKPass {S H T C A : Type}
    (out : List (String × T) × Option String)
    (r : ProfileRecord S H T C A) : ProfileRecord S H T C A :=
  { r with
    top_k := r.top_k ++ out.1,
    warnings := r.warnings ++
      (match out.2 with
       | some e => ["Top-K generation failed: " ++ e]
       | none => []) }

/-- `Profiler._run_correlation_pass` as seen by the orchestrator: a raised
exception becomes a warning and leaves both the `correlations` key and
`_meta.correlation_method` untouched; a completed pass sets them as it
decided. -/
def applyCorrelationPass {S H T C A : Type}
    (out : Except String (Option C × Option String))
    (r : ProfileRecord S H T C A) : ProfileRecord S H T C A :=
  match out with
  | .error e =>
    { r with warnings := r.warnings ++ ["Correlation generation failed: " ++ e] }
  | .ok res => { r with correlations := res.1, correlation_method := res.2 }

/-- `Profiler._run_alerts_pass`: a raised exception becomes a warning and
leaves the `alerts` key absent. -/
def applyAlertsPass {S H T C A : Type} (out : Except String A)
    (r : ProfileRecord S H T C A) : ProfileRecord S H T C A :=
  match out with
  | .error e =>
    { r with warnings := r.warnings ++ ["Alert generation failed: " ++ e] }
  | .ok a => { r with alerts := some a }

/-- `Profiler.profile`: Pass 1 (scalar) is fatal on failure
(`_run_scalar_pass` re-raises as `RuntimeError("Critical Error: ...")`);
then the four later passes run in order on the shared record. -/
def profile {S H T C A : Type} (o : PassOutcomes S H T C A) :
    Except String (ProfileRecord S H T C A) :=
  match o.scalar with
  | .error e => .error ("Critical Error: " ++ e)
  | .ok s =>
    .ok (applyAlertsPass o.diagnostics
      (applyCorrelationPass o.correlation
        (applyTopKPass o.top_k
          (applyHistogramPass o.histogram { scalars := s }))))

/-- The association list of histogram keys produced from the per-column
results of a successful histogram batch: exactly the successful columns,
in order. -/
def histogramKeys {H : Type} (results : List (String × Except String H)) :
    List (String × H) :=
  results.filterMap (fun res =>
    match res.2 with
    | .ok h => some (res.1, h)
    | .error _ => none)

/-- The per-column warnings produced from the per-column results of a
successful histogram batch. -/
def histogramColumnWarnings {H : Type}
    (results : List (String × Except String H)) : List String :=
  results.filterMap (fun res =>
    match res.2 with
    | .ok _ => none
    | .error e =>
      some ("Histogram generation failed for column " ++ res.1 ++ ": " ++ e))

/-! ## The correlation pass (`_run_correlation_pass` in `core.py`) -/

/-- `CORRELATION_SAMPLE_SIZE` from `core.py`. -/
def CORRELATION_SAMPLE_SIZE : Nat := 100000

/-- Listwise null-dropping (`drop_nulls()` on the numeric projection): the
number of rows with no null in any selected column. -/
def nullDropSurvivors (rows : List (List (Option ℚ))) : Nat :=
  (rows.filter (fun row => row.all Option.isSome)).length

/-- What `_run_correlation_pass` leaves in the record on a non-raising run:
whether the `correlations` key was created and the value of
`_meta.correlation_method`. -/
structure CorrelationDecision where
  has_correlations : Bool
  correlation_method : Option String
deriving DecidableEq, Repr

/-- The control flow of `_run_correlation_pass`: `numericCount` is the
schema length of the correlation plan (the number of numeric columns),
`rowCount` the `table_row_count` reused from pass 1, and `survivors` the
height of the collected projection after `drop_nulls()` (applied after
sampling when `rowCount` exceeds the sample size).  Matrices are computed
only when `survivors > 0` and the width exceeds 1, but the
`correlation_method` metadata is written whenever the schema check passed —
it is not guarded by the surviving-row check. -/
def correlationPassDecision (numericCount rowCount survivors : Nat) :
    CorrelationDecision :=
  if numericCount > 1 then
    let method_used :=
      if rowCount > CORRELATION_SAMPLE_SIZE then "sampled (n=100000)"
      else "exact"
    { has_correlations := decide (survivors > 0 ∧ numericCount > 1),
      correlation_method := some method_used }
  else { has_correlations := false, correlation_method := none }

/-! ## The correlation matrices

`DataFrame.corr()` in polars delegates to numpy's `corrcoef`: with
`c = cov(data)` and `d = sqrt(diag(c))`, the entry for columns `x, y` is
`c_xy / (d_x * d_y)` clipped to `[-1, 1]`; a zero variance makes the
quotient `0/0 = NaN`, which `fill_nan(None)` then turns into a null.  The
`(n-1)` covariance normalization cancels in the quotient, so the entry is
`centeredDot x y / (sqrt (varSum x) * sqrt (varSum y))`.  The embedding
keeps the entry symbolic in a `CorrVal` (numerator and the two variance
sums, all exact rationals) so that the matrices stay executable; the
irrational value itself is recovered by the interpretation
`CorrVal.toReal`. -/

/-- `sum(l) / len(l)`; the mean of a column (0 for an empty column,
matching `ℚ` division by zero — unused in that case). -/
def qmean (l : List ℚ) : ℚ := l.sum / l.length

/-- The centered dot product `Σ (x_i - mean x)(y_i - mean y)`. -/
def centeredDot (xs ys : List ℚ) : ℚ :=
  ((xs.zip ys).map (fun p => (p.1 - qmean xs) * (p.2 - qmean ys))).sum

/-- The (unnormalized) variance sum `Σ (x_i - mean x)²`. -/
def varSum (xs : List ℚ) : ℚ := centeredDot xs xs

/-- The symbolic value of a non-null correlation entry: the value is
`num / (sqrt vx * sqrt vy)` clipped to `[-1, 1]` (numpy's `corrcoef`
post-processing). -/
structure CorrVal where
  num : ℚ
  vx : ℚ
  vy : ℚ
deriving DecidableEq, Repr

/-- The real value of a correlation entry. -/
noncomputable def CorrVal.toReal (c : CorrVal) : ℝ :=
  max (-1) (min 1 ((c.num : ℝ) / (Real.sqrt (c.vx : ℝ) * Real.sqrt (c.vy : ℝ))))

/-- One entry of the Pearson matrix for data columns `xs`, `ys` (after
listwise null-dropping): `NaN` (null after `fill_nan(None)`) exactly when a
zero variance makes the denominator vanish. -/
def pearsonEntry (xs ys : List ℚ) : Option CorrVal :=
  if varSum xs * varSum ys = 0 then none
  else some ⟨centeredDot xs ys, varSum xs, varSum ys⟩

/-- The serialized Pearson matrix (`pearson_matrix.to_dicts()` after the
`column` labelling): one row per column, one entry per column. -/
def corrMatrix (cols : List (String × List ℚ)) :
    List (String × List (String × Option CorrVal)) :=
  cols.map (fun c => (c.1, cols.map (fun d => (d.1, pearsonEntry c.2 d.2))))

/-- Average rank (polars `rank()` default method) of `x` within `l`:
`#{y < x} + (#{y = x} + 1) / 2`. -/
def rankOf (l : List ℚ) (x : ℚ) : ℚ :=
  (l.countP (fun y => decide (y < x)) : ℚ) + ((l.count x : ℚ) + 1) / 2

/-- The rank transform of one column (`pl.all().rank()`). -/
def rankTransform (l : List ℚ) : List ℚ := l.map (rankOf l)

/-- The Spearman matrix: Pearson on the rank-transformed columns
(`correlation_df.select(pl.all().rank()).corr()`). -/
def spearmanMatrix (cols : List (String × List ℚ)) :
    List (String × List (String × Option CorrVal)) :=
  corrMatrix (cols.map (fun c => (c.1, rankTransform c.2)))

/-! ## Numeric scalar statistics (`build_scalar_plan` in `engine.py`)

The expressions `min()`, `quantile(0.25)`, `median()`, `quantile(0.75)`,
`max()` of the scalar plan, with the polars evaluation semantics: nulls are
ignored, every statistic of a fully-null column is null, `quantile` uses
the default "nearest" interpolation (`round(q * (n - 1))` into the sorted
values, rounding half away from zero), and `median` uses linear
interpolation (the average of the two middle sorted values). -/

/-- The non-null values of a column (polars aggregations ignore nulls). -/
def nonNullValues (xs : List (Option ℚ)) : List ℚ := xs.filterMap id

/-- The column's non-null values in ascending order. -/
def sortedVals (xs : List (Option ℚ)) : List ℚ :=
  List.insertionSort (· ≤ ·) (nonNullValues xs)

/-- The index used by polars `quantile(q)` with the default "nearest"
interpolation: `round(q * (n - 1))`, rounding half away from zero —
`⌊q * (n - 1) + 1/2⌋` (the argument is nonnegative for the quantiles in
use on a nonempty column). -/
def quantileNearestIdx (q : ℚ) (n : Nat) : Nat :=
  ⌊q * ((n : ℚ) - 1) + 1 / 2⌋₊

/-! ## The top-K pass (`build_top_k_plan` in `engine.py`)

The plan per text/categorical column is
`select(cast to String) → group_by("value") → len() → sort("len",
descending=True) → head(k)`.  Neither the `group_by` nor the `sort` call
passes `maintain_order=True`, so the engine guarantees one group row per
distinct value with its occurrence count and a result sorted by count
descending — but NOT any particular arrangement of rows with equal counts.
The embedding is therefore nondeterministic: `valueCounts` is only a
canonical enumeration of the set of group rows (the multiset the engine
must produce, in some order), and `IsTopKOutcome` holds for every `head(k)`
of every count-descending arrangement of those rows. -/

/-- One step of the grouping: bump the count of value `v` if it has a
group already, otherwise append the new group `(v, 1)` behind the existing
groups. -/
def addSeen : List (Option String × Nat) → Option String →
    List (Option String × Nat)
  | [], v => [(v, 1)]
  | (w, c) :: rest, v =>
    if w = v then (w, c + 1) :: rest else (w, c) :: addSeen rest v

/-- A canonical enumeration of the group rows of `group_by("value").len()`:
one row per distinct value of the column (nulls group like any value) with
its occurrence count.  The engine emits these rows in an unspecified order
(`maintain_order` is left `False`), so every use of `valueCounts` in the
top-K outcome predicate is up to permutation; the enumeration order chosen
here carries no meaning. -/
def valueCounts (xs : List (Option String)) : List (Option String × Nat) :=
  xs.foldl addSeen []

/-- The count a grouping accumulator holds for a value, if any. -/
def lookupCount : List (Option String × Nat) → Option String → Option Nat
  | [], _ => none
  | (w, c) :: rest, v => if w = v then some c else lookupCount rest v

/-- The sort key relation of `sort("len", descending=True)`: row `a` may
precede row `b` only when its count is no smaller. -/
def countDescLe (a b : Option String × Nat) : Bool := b.2 ≤ a.2

/-- The admissible collected top-K tables for one column: `head(k)` of
some arrangement of the group rows that is sorted by count descending.
Because `group_by` and `sort("len", descending=True)` are both called
without `maintain_order=True`, any such arrangement is a possible engine
output — in particular the relative order of rows with equal counts is
unspecified.  (`k` defaults to 10 in `build_top_k_plan`.) -/
def IsTopKOutcome (k : Nat) (xs : List (Option String))
    (result : List (Option String × Nat)) : Prop :=
  ∃ sorted : List (Option String × Nat),
    sorted.Perm (valueCounts xs) ∧
    sorted.Pairwise (fun a b => b.2 ≤ a.2) ∧
    result = sorted.take k

/-! ## The complex-type preprocessor (`preprocess_complex_types` in
`engine.py`) -/

/-- A polars data type as the preprocessor distinguishes them: a nested
record (`pl.Struct`) with named field types, a sequence (`pl.List` or
`pl.Array`), or a scalar type. -/
inductive PDType where
  | tstruct (fields : List (String × PDType))
  | tlist (inner : PDType)
  | tarray (inner : PDType) (size : Nat)
  | tint
  | tfloat
  | tstr
  | tbool

/-- A row value, as needed to state the per-row semantics of the generated
expressions. -/
inductive PVal where
  | pnull
  | pint (i : Int)
  | pfloat (q : ℚ)
  | pstr (s : String)
  | pbool (b : Bool)
  | pstruct (fields : List (String × PVal))
  | plist (elems : List PVal)

/-- First matching field of a struct value (null when absent). -/
def lookupField : List (String × PVal) → String → PVal
  | [], _ => .pnull
  | (n, v) :: rest, f => if n = f then v else lookupField rest f

/-- One expression generated by the preprocessor: a struct-field projection
`pl.col(parent).struct.field(f).alias(parent_f)`, a sequence length
`pl.col(name).list.len().alias(name_len)`, or a pass-through
`pl.col(name)`. -/
inductive PExpr where
  | structField (parent fieldName : String) (fieldType : PDType)
  | listLen (name : String)
  | passthrough (name : String) (dt : PDType)

/-- The output column name of a generated expression (its alias). -/
def PExpr.outName : PExpr → String
  | .structField p f _ => p ++ "_" ++ f
  | .listLen n => n ++ "_len"
  | .passthrough n _ => n

/-- The output dtype of a generated expression: a struct field keeps its
declared field type, `list.len()` yields an unsigned-integer column, a
pass-through keeps its type. -/
def PExpr.outType : PExpr → PDType
  | .structField _ _ t => t
  | .listLen _ => .tint
  | .passthrough _ t => t

/-- The per-row value of a generated expression. -/
def PExpr.eval (row : String → PVal) : PExpr → PVal
  | .structField p f _ =>
    match row p with
    | .pstruct fields => lookupField fields f
    | _ => .pnull
  | .listLen n =>
    match row n with
    | .plist elems => .pint elems.length
    | _ => .pnull
  | .passthrough n _ => row n

/-- The loop body of `preprocess_complex_types` for one schema column: a
struct contributes one aliased field projection per field, a list or array
contributes its `_len` expression, anything else passes through. -/
def columnExprs (c : String × PDType) : List PExpr :=
  match c.2 with
  | .tstruct fields => fields.map (fun f => .structField c.1 f.1 f.2)
  | .tlist _ => [.listLen c.1]
  | .tarray _ _ => [.listLen c.1]
  | dt => [.passthrough c.1 dt]

/-- `preprocess_complex_types`: the expression list built by the loop over
the schema. -/
def preprocess_complex_types (schema : List (String × PDType)) : List PExpr :=
  schema.foldl (fun acc c => acc ++ columnExprs c) []

/-- The output schema of the preprocessor (name and dtype of every
generated expression, in order). -/
def outSchema (schema : List (String × PDType)) : List (String × PDType) :=
  (preprocess_complex_types schema).map (fun e => (e.outName, e.outType))

/-- The schema transform as the spec words it (the refinement target for
C6): each nested-record column's fields become `{parent}_{field}` columns,
each sequence column becomes an integer `{name}_len` column, every other
column passes through unchanged — a zero-field nested column yields no
output columns. -/
def specSchemaTransform (schema : List (String × PDType)) :
    List (String × PDType) :=
  schema.flatMap (fun c =>
    match c.2 with
    | .tstruct fields => fields.map (fun f => (c.1 ++ "_" ++ f.1, f.2))
    | .tlist _ => [(c.1 ++ "_len", .tint)]
    | .tarray _ _ => [(c.1 ++ "_len", .tint)]
    | dt => [(c.1, dt)])

/-- The five order statistics of one numeric column produced by the scalar
pass. -/
structure NumericScalarStats where
  minVal : Option ℚ
  p25 : Option ℚ
  p50 : Option ℚ
  p75 : Option ℚ
  maxVal : Option ℚ
deriving DecidableEq, Repr

/-- The evaluation of the numeric scalar expressions of `build_scalar_plan`
on one column: `{col}_min`, `{col}_p25 = quantile(0.25)`,
`{col}_p50 = median()`, `{col}_p75 = quantile(0.75)`, `{col}_max`. -/
def numericScalarStats (xs : List (Option ℚ)) : NumericScalarStats :=
  let s := sortedVals xs
  let n := s.length
  { minVal := s.head?
  , p25 := s[quantileNearestIdx (1 / 4) n]?
  , p50 :=
      if n = 0 then none
      else some ((s.getD ((n - 1) / 2) 0 + s.getD (n / 2) 0) / 2)
  , p75 := s[quantileNearestIdx (3 / 4) n]?
  , maxVal := s.getLast? }

end NetraProfiler

namespace NetraProfiler

open List

/-- C4: for a column with positive row count, `_check_nulls` emits exactly one
CRITICAL `EMPTY_COLUMN` alert when `null_count/row_count > 0.95`, otherwise
exactly one CRITICAL `HIGH_NULLS` alert when the ratio exceeds `0.50`,
otherwise nothing; the two alerts are mutually exclusive. -/
theorem check_nulls_thresholds (row_count : Nat) (c : ColumnProfile)
    (hpos : 0 < row_count) :
    let ratio : ℚ := (c.null_count : ℚ) / (row_count : ℚ)
    (ratio > 95 / 100 →
      DiagnosticEngine.check_nulls row_count c =
        [{ column := c.name, alert_type := "EMPTY_COLUMN", level := .critical,
           message := "Column is mostly empty. It likely contains no useful information.",
           value := some ratio }]) ∧
    (ratio ≤ 95 / 100 → ratio > 50 / 100 →
      DiagnosticEngine.check_nulls row_count c =
        [{ column := c.name, alert_type := "HIGH_NULLS", level := .critical,
           message := "Column is mostly empty. Imputation may be difficult.",
           value := some ratio }]) ∧
    (ratio ≤ 50 / 100 → DiagnosticEngine.check_nulls row_count c = []) ∧
    (¬ ((DiagnosticEngine.check_nulls row_count c).any
          (fun a => a.alert_type = "EMPTY_COLUMN") = true ∧
        (DiagnosticEngine.check_nulls row_count c).any
          (fun a => a.alert_type = "HIGH_NULLS") = true)) := by
  intro ratio
  have hconf₁ : config.NULL_CRITICAL_THRESHOLD = 95 / 100 := rfl
  have hconf₂ : config.NULL_WARNING_THRESHOLD = 50 / 100 := rfl
  refine ⟨?_, ?_, ?_, ?_⟩
  · intro h
    simp only [DiagnosticEngine.check_nulls, hconf₁, hconf₂]
    rw [if_pos h]
  · intro h₁ h₂
    simp only [DiagnosticEngine.check_nulls, hconf₁, hconf₂]
    rw [if_neg (by exact not_lt.mpr h₁), if_pos h₂]
  · intro h
    have h₁ : ¬ ratio > 95 / 100 := by
      intro hc
      exact absurd h (not_le.mpr (lt_trans (by norm_num) hc))
    have h₂ : ¬ ratio > 50 / 100 := not_lt.mpr h
    simp only [DiagnosticEngine.check_nulls, hconf₁, hconf₂]
    rw [if_neg h₁, if_neg h₂]
  · intro ⟨h₁, h₂⟩
    simp only [DiagnosticEngine.check_nulls, hconf₁, hconf₂] at h₁ h₂
    by_cases hc : ratio > 95 / 100
    · rw [if_pos hc] at h₂
      simp [List.any] at h₂
    · rw [if_neg hc] at h₁
      by_cases hw : ratio > 50 / 100
      · rw [if_pos hw] at h₁
        simp [List.any] at h₁
      · rw [if_neg hw] at h₁
        simp [List.any] at h₁

/-- Witness for `check_nulls_thresholds` at a concrete column:
24 nulls out of 25 rows is a 96% ratio, above the 95% threshold. -/
theorem check_nulls_thresholds_witness :
    (0 < 25) ∧
    ((24 : ℚ) / (25 : ℚ) > 95 / 100 →
      DiagnosticEngine.check_nulls 25 { name := "c", null_count := 24 } =
        [{ column := "c", alert_type := "EMPTY_COLUMN", level := .critical,
           message := "Column is mostly empty. It likely contains no useful information.",
           value := some ((24 : ℚ) / (25 : ℚ)) }]) := by
  refine ⟨by norm_num, ?_⟩
  have h := check_nulls_thresholds 25 { name := "c", null_count := 24 } (by norm_num)
  exact h.1

/-- Skipping a run of non-zero-valued items does not change the result of the
`_check_zeros` scan loop. -/
theorem check_zeros_loop_append (row_count : Nat) (name : String)
    (pre : List TopKItem) (hpre : ∀ e ∈ pre, e.value.pyEqZero = false)
    (l : List TopKItem) :
    DiagnosticEngine.check_zeros_loop row_count name (pre ++ l) =
      DiagnosticEngine.check_zeros_loop row_count name l := by
  induction pre with
  | nil => rfl
  | cons e pre ih =>
    have he : e.value.pyEqZero = false := hpre e (List.mem_cons_self e pre)
    simp only [List.cons_append, DiagnosticEngine.check_zeros_loop, he]
    exact ih (fun x hx => hpre x (List.mem_cons_of_mem e hx))

/-- C7: `_check_zeros` scans the top-K list up to the first entry whose value
compares equal to Python zero; it emits `ZERO_INFLATED` iff that entry's
count share of `row_count` exceeds 0.10, and everything after the first
zero-valued entry is ignored (no aggregation); with no zero-valued entry
nothing is emitted. -/
theorem check_zeros_first_zero (row_count : Nat) (hpos : 0 < row_count) :
    (∀ (c : ColumnProfile) (pre : List TopKItem) (z : TopKItem)
       (rest : List TopKItem),
      c.top_k = some (pre ++ z :: rest) →
      (∀ e ∈ pre, e.value.pyEqZero = false) →
      z.value.pyEqZero = true →
      DiagnosticEngine.check_zeros row_count c =
        (if (z.count : ℚ) / (row_count : ℚ) > 10 / 100 then
          [DiagnosticEngine.zeroInflatedAlert c.name
            ((z.count : ℚ) / (row_count : ℚ))]
        else [])) ∧
    (∀ (c : ColumnProfile) (l : List TopKItem),
      c.top_k = some l →
      (∀ e ∈ l, e.value.pyEqZero = false) →
      DiagnosticEngine.check_zeros row_count c = []) := by
  constructor
  · intro c pre z rest htk hpre hz
    simp only [DiagnosticEngine.check_zeros, htk]
    rw [check_zeros_loop_append row_count c.name pre hpre]
    simp only [DiagnosticEngine.check_zeros_loop, hz]
    rfl
  · intro c l htk hl
    simp only [DiagnosticEngine.check_zeros, htk]
    have h := check_zeros_loop_append row_count c.name l hl []
    simpa using h

/-- Witness for `check_zeros_first_zero`: Scenario E of the spec — top-K
`[(0, 150)]` with row count 1000 fires at a 15% share. -/
theorem check_zeros_first_zero_witness :
    (0 < 1000) ∧
    DiagnosticEngine.check_zeros 1000
      { name := "n", top_k := some [⟨.vint 0, 150⟩] } =
      (if (150 : ℚ) / (1000 : ℚ) > 10 / 100 then
        [DiagnosticEngine.zeroInflatedAlert "n" ((150 : ℚ) / (1000 : ℚ))]
      else []) := by
  refine ⟨by norm_num, ?_⟩
  have h := (check_zeros_first_zero 1000 (by norm_num)).1
    { name := "n", top_k := some [⟨.vint 0, 150⟩] } [] ⟨.vint 0, 150⟩ []
    rfl (by intro e he; simp at he) (by rfl)
  simpa using h

/-- C10: with a zero or absent `table_row_count`, `DiagnosticEngine.run`
returns the empty alert list without evaluating any per-column rule (so the
null-ratio division is never performed with a zero divisor). -/
theorem run_zero_row_count (floatParses : Value → Bool) (p : DiagProfile)
    (h : p.table_row_count = none ∨ p.table_row_count = some 0) :
    DiagnosticEngine.run floatParses p = [] := by
  rcases h with h | h <;> simp [DiagnosticEngine.run, h]

/-- Witness for `run_zero_row_count`: a record with the `table_row_count`
key absent but a column present yields no alerts. -/
theorem run_zero_row_count_witness :
    DiagnosticEngine.run (fun _ => true)
      { table_row_count := none,
        columns := [{ name := "c", null_count := 5 }] } = [] :=
  run_zero_row_count (fun _ => true) _ (Or.inl rfl)

/-- Case analysis of one `scanEntry` step: either the state is unchanged, or
the entry is off-diagonal with a present value of magnitude above the
threshold and a not-yet-checked pair, and the step pushes the canonical pair
and appends exactly one alert. -/
theorem scanEntry_cases (primary : String) (st : DiagnosticEngine.CorrScanState)
    (e : String × Option ℚ) :
    DiagnosticEngine.scanEntry primary st e = st ∨
    ∃ value, e.2 = some value ∧ e.1 ≠ primary ∧
      DiagnosticEngine.canonPair primary e.1 ∉ st.checked ∧
      |value| > 99 / 100 ∧
      DiagnosticEngine.scanEntry primary st e =
        { checked := DiagnosticEngine.canonPair primary e.1 :: st.checked,
          alerts := st.alerts ++
            [{ column := primary ++ " <-> " ++ e.1,
               alert_type := "HIGH_CORRELATION", level := .warning,
               message := "Columns are highly correlated. They contain redundant information.",
               value := some value }] } := by
  unfold DiagnosticEngine.scanEntry
  by_cases h₁ : e.1 = primary
  · left; rw [if_pos h₁]
  · rw [if_neg h₁]
    match hval : e.2 with
    | none => left; rfl
    | some value =>
      by_cases h₂ : DiagnosticEngine.canonPair primary e.1 ∈ st.checked
      · left; simp only [if_pos h₂]
      · by_cases h₃ : |value| > config.HIGH_CORRELATION_THRESHOLD
        · right
          exact ⟨value, rfl, h₁, h₂, h₃, by simp only [if_neg h₂, if_pos h₃]⟩
        · left; simp only [if_neg h₂, if_neg h₃]

/-- A checked pair stays checked across one `scanEntry` step. -/
theorem scanEntry_checked_mono (primary : String)
    (st : DiagnosticEngine.CorrScanState) (e : String × Option ℚ)
    (pr : String × String) (h : pr ∈ st.checked) :
    pr ∈ (DiagnosticEngine.scanEntry primary st e).checked := by
  rcases scanEntry_cases primary st e with heq | ⟨v, _, _, _, _, heq⟩ <;> rw [heq]
  · exact h
  · exact List.mem_cons_of_mem _ h

/-- A checked pair stays checked across a fold of `scanEntry` steps. -/
theorem scanEntries_checked_mono (primary : String)
    (entries : List (String × Option ℚ)) (st : DiagnosticEngine.CorrScanState)
    (pr : String × String) (h : pr ∈ st.checked) :
    pr ∈ (entries.foldl (DiagnosticEngine.scanEntry primary) st).checked :=
  List.foldlRecOn entries (DiagnosticEngine.scanEntry primary) st h
    (fun b hb a _ => scanEntry_checked_mono primary b a pr hb)

/-- A checked pair stays checked across one `scanRow` step. -/
theorem scanRow_checked_mono (st : DiagnosticEngine.CorrScanState)
    (row : CorrRow) (pr : String × String) (h : pr ∈ st.checked) :
    pr ∈ (DiagnosticEngine.scanRow st row).checked := by
  cases hcol : row.column with
  | none => simpa only [DiagnosticEngine.scanRow, hcol] using h
  | some primary =>
    by_cases hp : primary = ""
    · simp only [DiagnosticEngine.scanRow, hcol, if_pos hp]; exact h
    · simp only [DiagnosticEngine.scanRow, hcol, if_neg hp]
      exact scanEntries_checked_mono primary row.entries st pr h

/-- One `scanEntry` step preserves the scan invariant. -/
theorem scanEntry_inv (primary : String) (st : DiagnosticEngine.CorrScanState)
    (e : String × Option ℚ) (h : DiagnosticEngine.ScanInv st) :
    DiagnosticEngine.ScanInv (DiagnosticEngine.scanEntry primary st e) := by
  rcases scanEntry_cases primary st e with heq | ⟨v, _, _, hnot, _, heq⟩ <;> rw [heq]
  · exact h
  · obtain ⟨h₁, h₂, h₃⟩ := h
    refine ⟨List.nodup_cons.mpr ⟨hnot, h₁⟩, by simp [h₂], ?_⟩
    rw [List.reverse_cons]
    refine List.rel_append h₃ (List.Forall₂.cons ⟨rfl, rfl, ?_⟩ List.Forall₂.nil)
    unfold DiagnosticEngine.canonPair
    by_cases hlt : primary < e.1
    · rw [if_pos hlt]; exact Or.inl rfl
    · rw [if_neg hlt]; exact Or.inr rfl

/-- One `scanRow` step preserves the scan invariant. -/
theorem scanRow_inv (st : DiagnosticEngine.CorrScanState) (row : CorrRow)
    (h : DiagnosticEngine.ScanInv st) :
    DiagnosticEngine.ScanInv (DiagnosticEngine.scanRow st row) := by
  cases hcol : row.column with
  | none => simpa only [DiagnosticEngine.scanRow, hcol] using h
  | some primary =>
    by_cases hp : primary = ""
    · simp only [DiagnosticEngine.scanRow, hcol, if_pos hp]; exact h
    · simp only [DiagnosticEngine.scanRow, hcol, if_neg hp]
      exact List.foldlRecOn row.entries (DiagnosticEngine.scanEntry primary) st h
        (fun b hb a _ => scanEntry_inv primary b a hb)

/-- If every encounter of the pair `(a, b)` in the entry list carries the
value `v` and `|v|` does not exceed the threshold, a fold of `scanEntry`
steps never checks `(a, b)`. -/
theorem scanEntries_not_checked (primary : String)
    (entries : List (String × Option ℚ)) (st : DiagnosticEngine.CorrScanState)
    (a b : String) (v : ℚ)
    (hval : ∀ e ∈ entries, e.1 ≠ primary →
      DiagnosticEngine.canonPair primary e.1 = (a, b) → e.2 = some v)
    (hv : ¬ |v| > 99 / 100) (h : (a, b) ∉ st.checked) :
    (a, b) ∉ (entries.foldl (DiagnosticEngine.scanEntry primary) st).checked := by
  refine List.foldlRecOn (motive := fun s => (a, b) ∉ s.checked) entries
    (DiagnosticEngine.scanEntry primary) st h ?_
  intro s hs e he
  rcases scanEntry_cases primary s e with heq | ⟨w, hw, hne, _, hgt, heq⟩ <;> rw [heq]
  · exact hs
  · intro hmem
    rcases List.mem_cons.mp hmem with hp | hp
    · have hev : e.2 = some v := hval e he hne hp.symm
      rw [hw] at hev
      have : w = v := Option.some_injective ℚ hev
      rw [this] at hgt
      exact hv hgt
    · exact hs hp

/-- If every encounter of the pair `(a, b)` in the row carries the value `v`
and `|v|` does not exceed the threshold, `scanRow` never checks `(a, b)`. -/
theorem scanRow_not_checked (st : DiagnosticEngine.CorrScanState)
    (row : CorrRow) (a b : String) (v : ℚ)
    (hval : ∀ primary, row.column = some primary → primary ≠ "" →
      ∀ e ∈ row.entries, e.1 ≠ primary →
        DiagnosticEngine.canonPair primary e.1 = (a, b) → e.2 = some v)
    (hv : ¬ |v| > 99 / 100) (h : (a, b) ∉ st.checked) :
    (a, b) ∉ (DiagnosticEngine.scanRow st row).checked := by
  cases hcol : row.column with
  | none => simpa only [DiagnosticEngine.scanRow, hcol] using h
  | some primary =>
    by_cases hp : primary = ""
    · simp only [DiagnosticEngine.scanRow, hcol, if_pos hp]; exact h
    · simp only [DiagnosticEngine.scanRow, hcol, if_neg hp]
      exact scanEntries_not_checked primary row.entries st a b v
        (hval primary hcol hp) hv h

/-- If the entry list contains an encounter of `(a, b)`, every encounter
carries the value `v`, and `|v|` exceeds the threshold, then after the fold
of `scanEntry` steps the pair `(a, b)` is checked. -/
theorem scanEntries_checked_of_encounter (primary : String)
    (entries : List (String × Option ℚ)) (st : DiagnosticEngine.CorrScanState)
    (a b : String) (v : ℚ)
    (henc : ∃ e ∈ entries, e.1 ≠ primary ∧
      DiagnosticEngine.canonPair primary e.1 = (a, b))
    (hval : ∀ e ∈ entries, e.1 ≠ primary →
      DiagnosticEngine.canonPair primary e.1 = (a, b) → e.2 = some v)
    (hv : |v| > 99 / 100) :
    (a, b) ∈ (entries.foldl (DiagnosticEngine.scanEntry primary) st).checked := by
  induction entries generalizing st with
  | nil => simp at henc
  | cons e rest ih =>
    rw [List.foldl_cons]
    obtain ⟨e', he', hne', hcp'⟩ := henc
    rcases List.mem_cons.mp he' with rfl | hrest
    · by_cases hmem : (a, b) ∈ st.checked
      · exact scanEntries_checked_mono primary rest _ _
          (scanEntry_checked_mono primary st e' _ hmem)
      · have hev : e'.2 = some v := hval e' (List.mem_cons_self e' rest) hne' hcp'
        have hvt : |v| > config.HIGH_CORRELATION_THRESHOLD := hv
        have hfire : (a, b) ∈ (DiagnosticEngine.scanEntry primary st e').checked := by
          unfold DiagnosticEngine.scanEntry
          simp only [if_neg hne', hev, hcp', if_neg hmem, if_pos hvt]
          exact List.mem_cons_self _ _
        exact scanEntries_checked_mono primary rest _ _ hfire
    · exact ih _ ⟨e', hrest, hne', hcp'⟩
        (fun x hx => hval x (List.mem_cons_of_mem _ hx))

/-- Matrix-level positive direction: an encountered pair with uniform value
above the threshold ends up checked. -/
theorem scanRows_checked_of_encounter (m : List CorrRow)
    (st : DiagnosticEngine.CorrScanState) (a b : String) (v : ℚ)
    (hval : ∀ row ∈ m, ∀ primary, row.column = some primary → primary ≠ "" →
      ∀ e ∈ row.entries, e.1 ≠ primary →
        DiagnosticEngine.canonPair primary e.1 = (a, b) → e.2 = some v)
    (henc : ∃ row ∈ m, ∃ primary, row.column = some primary ∧ primary ≠ "" ∧
      ∃ e ∈ row.entries, e.1 ≠ primary ∧
        DiagnosticEngine.canonPair primary e.1 = (a, b))
    (hv : |v| > 99 / 100) :
    (a, b) ∈ (m.foldl DiagnosticEngine.scanRow st).checked := by
  induction m generalizing st with
  | nil => simp at henc
  | cons row rest ih =>
    rw [List.foldl_cons]
    obtain ⟨row', hrow', primary, hcol, hprim, henc'⟩ := henc
    rcases List.mem_cons.mp hrow' with rfl | hrest
    · have hrowstep : (a, b) ∈ (DiagnosticEngine.scanRow st row').checked := by
        simp only [DiagnosticEngine.scanRow, hcol, if_neg hprim]
        obtain ⟨e, he, hne, hcp⟩ := henc'
        exact scanEntries_checked_of_encounter primary row'.entries st a b v
          ⟨e, he, hne, hcp⟩
          (hval row' (List.mem_cons_self row' rest) primary hcol hprim) hv
      exact List.foldlRecOn rest DiagnosticEngine.scanRow _ hrowstep
        (fun s hs r _ => scanRow_checked_mono s r _ hs)
    · exact ih _ (fun r hr => hval r (List.mem_cons_of_mem _ hr))
        ⟨row', hrest, primary, hcol, hprim, henc'⟩

/-- C8: per correlation matrix, the `_check_correlations` scan emits exactly
one WARNING `HIGH_CORRELATION` alert per fired canonical pair: the checked
pairs are pairwise distinct and in one-to-one correspondence with the
alerts, each alert labeled `A <-> B` by its pair; moreover a pair whose
(uniform) off-diagonal value `v` satisfies `|v| > 0.99` is fired whenever it
is encountered at all, and a pair with `|v| ≤ 0.99` is never fired. -/
theorem check_correlations_pair_once (m : List CorrRow) :
    DiagnosticEngine.ScanInv (DiagnosticEngine.scanMatrixState m) ∧
    (∀ a b v,
      (∀ row ∈ m, ∀ primary, row.column = some primary → primary ≠ "" →
        ∀ e ∈ row.entries, e.1 ≠ primary →
          DiagnosticEngine.canonPair primary e.1 = (a, b) → e.2 = some v) →
      ((∃ row ∈ m, ∃ primary, row.column = some primary ∧ primary ≠ "" ∧
          ∃ e ∈ row.entries, e.1 ≠ primary ∧
            DiagnosticEngine.canonPair primary e.1 = (a, b)) →
        |v| > 99 / 100 →
        (a, b) ∈ (DiagnosticEngine.scanMatrixState m).checked) ∧
      (¬ |v| > 99 / 100 →
        (a, b) ∉ (DiagnosticEngine.scanMatrixState m).checked)) := by
  constructor
  · exact List.foldlRecOn m DiagnosticEngine.scanRow _
      ⟨List.nodup_nil, rfl, List.Forall₂.nil⟩
      (fun s hs r _ => scanRow_inv s r hs)
  · intro a b v hval
    constructor
    · intro henc hv
      exact scanRows_checked_of_encounter m _ a b v hval henc hv
    · intro hv
      exact List.foldlRecOn m DiagnosticEngine.scanRow _ (by simp)
        (fun s hs r hr => scanRow_not_checked s r a b v
          (fun primary hcol hprim => hval r hr primary hcol hprim) hv hs)

/-- Witness for `check_correlations_pair_once`: a concrete symmetric 2×2
matrix with off-diagonal value 1 fires the pair `("x", "y")` once. -/
theorem check_correlations_pair_once_witness :
    ("x", "y") ∈ (DiagnosticEngine.scanMatrixState
      [{ column := some "x", entries := [("x", some 1), ("y", some 1)] },
       { column := some "y", entries := [("x", some 1), ("y", some 1)] }]).checked := by
  have h := (check_correlations_pair_once
    [{ column := some "x", entries := [("x", some 1), ("y", some 1)] },
     { column := some "y", entries := [("x", some 1), ("y", some 1)] }]).2 "x" "y" 1
  refine (h ?_).1 ?_ ?_
  · intro row hrow primary hcol hprim e he hne hcp
    rcases List.mem_cons.mp hrow with rfl | hrow'
    · simp only [CorrRow.mk.injEq] at *
      rcases List.mem_cons.mp he with rfl | he'
      · rfl
      · rcases List.mem_cons.mp he' with rfl | he''
        · rfl
        · simp at he''
    · rcases List.mem_cons.mp hrow' with rfl | hrow''
      · rcases List.mem_cons.mp he with rfl | he'
        · rfl
        · rcases List.mem_cons.mp he' with rfl | he''
          · rfl
          · simp at he''
      · simp at hrow''
  · refine ⟨_, List.mem_cons_self _ _, "x", rfl, by decide, ("y", some 1), ?_, ?_, ?_⟩
    · simp
    · decide
    · unfold DiagnosticEngine.canonPair
      rw [if_pos (show ("x" : String) < "y" by
        rw [String.lt_iff_toList_lt]; decide)]
  · norm_num

/-- The histogram per-column fold writes exactly the successful columns'
keys and the failing columns' warnings, in order, and touches nothing
else. -/
theorem histogram_fold_eq {S H T C A : Type}
    (results : List (String × Except String H)) (r : ProfileRecord S H T C A) :
    results.foldl applyHistogramColumn r =
      { r with histograms := r.histograms ++ histogramKeys results,
               warnings := r.warnings ++ histogramColumnWarnings results } := by
  induction results generalizing r with
  | nil => simp [histogramKeys, histogramColumnWarnings]
  | cons res rest ih =>
    rw [List.foldl_cons, ih]
    cases hres : res.2 with
    | ok h =>
      simp [applyHistogramColumn, hres, histogramKeys, histogramColumnWarnings]
    | error e =>
      simp [applyHistogramColumn, hres, histogramKeys, histogramColumnWarnings]

/-- Full characterization of a non-fatal `profile` run: every field of the
returned record as a function of the pass outcomes. -/
theorem profile_ok_eq {S H T C A : Type} (o : PassOutcomes S H T C A)
    (s : S) (hs : o.scalar = .ok s) :
    profile o = .ok
      { scalars := s,
        histograms :=
          match o.histogram with
          | .error _ => []
          | .ok results => histogramKeys results,
        top_k := o.top_k.1,
        correlations :=
          match o.correlation with
          | .error _ => none
          | .ok res => res.1,
        correlation_method :=
          match o.correlation with
          | .error _ => none
          | .ok res => res.2,
        alerts :=
          match o.diagnostics with
          | .error _ => none
          | .ok a => some a,
        warnings :=
          (match o.histogram with
           | .error e => ["Histogram generation failed: " ++ e]
           | .ok results => histogramColumnWarnings results) ++
          ((match o.top_k.2 with
            | some e => ["Top-K generation failed: " ++ e]
            | none => []) ++
           ((match o.correlation with
             | .error e => ["Correlation generation failed: " ++ e]
             | .ok _ => []) ++
            (match o.diagnostics with
             | .error e => ["Alert generation failed: " ++ e]
             | .ok _ => []))) } := by
  cases hh : o.histogram with
  | error e =>
    cases hc : o.correlation <;> cases hd : o.diagnostics <;>
      simp [profile, hs, hh, hc, hd, applyHistogramPass, applyTopKPass,
        applyCorrelationPass, applyAlertsPass]
  | ok results =>
    cases hc : o.correlation <;> cases hd : o.diagnostics <;>
      simp [profile, hs, hh, hc, hd, applyHistogramPass, applyTopKPass,
        applyCorrelationPass, applyAlertsPass, histogram_fold_eq]

/-- C1: failure isolation of the orchestrator.  A scalar-pass exception
aborts `profile()` with a `Critical Error` and no record.  Any exception
from the histogram, top-K, correlation, or diagnostics pass is converted
into a warning in `_meta.warnings`, the corresponding output key(s) stay
absent, and every other pass still contributes its results. -/
theorem profile_failure_isolation {S H T C A : Type}
    (o : PassOutcomes S H T C A) :
    (∀ e, o.scalar = .error e →
      profile o = .error ("Critical Error: " ++ e)) ∧
    (∀ s, o.scalar = .ok s → ∃ r, profile o = .ok r ∧ r.scalars = s ∧
      (∀ e, o.histogram = .error e → r.histograms = [] ∧
        ("Histogram generation failed: " ++ e) ∈ r.warnings) ∧
      (∀ results, o.histogram = .ok results →
        r.histograms = histogramKeys results ∧
        ∀ name e, (name, Except.error e) ∈ results →
          ("Histogram generation failed for column " ++ name ++ ": " ++ e)
            ∈ r.warnings) ∧
      r.top_k = o.top_k.1 ∧
      (∀ e, o.top_k.2 = some e →
        ("Top-K generation failed: " ++ e) ∈ r.warnings) ∧
      (∀ e, o.correlation = .error e → r.correlations = none ∧
        r.correlation_method = none ∧
        ("Correlation generation failed: " ++ e) ∈ r.warnings) ∧
      (∀ res, o.correlation = .ok res → r.correlations = res.1 ∧
        r.correlation_method = res.2) ∧
      (∀ e, o.diagnostics = .error e → r.alerts = none ∧
        ("Alert generation failed: " ++ e) ∈ r.warnings) ∧
      (∀ a, o.diagnostics = .ok a → r.alerts = some a)) := by
  constructor
  · intro e he
    simp [profile, he]
  · intro s hs
    refine ⟨_, profile_ok_eq o s hs, rfl, ?_, ?_, rfl, ?_, ?_, ?_, ?_, ?_⟩
    · intro e he
      refine ⟨by rw [he], ?_⟩
      rw [he]
      exact List.mem_append_left _ (List.mem_singleton_self _)
    · intro results hres
      refine ⟨by rw [hres], ?_⟩
      intro name e hmem
      rw [hres]
      refine List.mem_append_left _ ?_
      simp only [histogramColumnWarnings, List.mem_filterMap]
      exact ⟨(name, Except.error e), hmem, rfl⟩
    · intro e he
      rw [he]
      exact List.mem_append_right _
        (List.mem_append_left _ (List.mem_singleton_self _))
    · intro e he
      refine ⟨by rw [he], by rw [he], ?_⟩
      rw [he]
      exact List.mem_append_right _ (List.mem_append_right _
        (List.mem_append_left _ (List.mem_singleton_self _)))
    · intro res hres
      exact ⟨by rw [hres], by rw [hres]⟩
    · intro e he
      refine ⟨by rw [he], ?_⟩
      rw [he]
      exact List.mem_append_right _ (List.mem_append_right _
        (List.mem_append_right _ (List.mem_singleton_self _)))
    · intro a ha
      rw [ha]

/-- Witness for `profile_failure_isolation`: a concrete run where the
scalar pass succeeds, the correlation pass raises, and the diagnostics pass
succeeds — the exception is converted into a warning, the `correlations`
key is absent, and the alerts are still produced. -/
theorem profile_failure_isolation_witness :
    ∃ r : ProfileRecord Nat Nat Nat Nat Nat, profile
      { scalar := .ok 7, histogram := .ok [("a", .ok 1)],
        top_k := ([("b", 2)], none), correlation := .error "boom",
        diagnostics := .ok 3 } = .ok r ∧
      r.correlations = none ∧
      ("Correlation generation failed: " ++ "boom") ∈ r.warnings ∧
      r.alerts = some 3 := by
  obtain ⟨-, hok⟩ := profile_failure_isolation
    (S := Nat) (H := Nat) (T := Nat) (C := Nat) (A := Nat)
    { scalar := .ok 7, histogram := .ok [("a", .ok 1)],
      top_k := ([("b", 2)], none), correlation := .error "boom",
      diagnostics := .ok 3 }
  obtain ⟨r, hr, -, -, -, -, -, hcorr, -, -, halerts⟩ := hok 7 rfl
  obtain ⟨hc₁, -, hc₃⟩ := hcorr "boom" rfl
  exact ⟨r, hr, hc₁, hc₃, halerts 3 rfl⟩

/-- C2, counterexample: with 2 numeric columns and 2 rows each holding a
null, zero rows survive listwise null-dropping, the `correlations` key is
absent — but `_meta.correlation_method` is `"exact"`, not null, because the
metadata injection in `_run_correlation_pass` is not guarded by the
surviving-row check.  This refutes the claim that the method is null in
this case. -/
theorem correlation_skip_counterexample :
    nullDropSurvivors [[some 1, none], [none, some 2]] = 0 ∧
    (correlationPassDecision 2 2
      (nullDropSurvivors [[some 1, none], [none, some 2]])).has_correlations
      = false ∧
    (correlationPassDecision 2 2
      (nullDropSurvivors [[some 1, none], [none, some 2]])).correlation_method
      = some "exact" ∧
    some "exact" ≠ (none : Option String) := by
  refine ⟨rfl, rfl, rfl, ?_⟩
  intro h
  exact Option.noConfusion h

/-- C2, amended: with fewer than 2 numeric columns the pass is skipped
entirely (no `correlations` key, method null); with at least 2 numeric
columns but zero surviving rows the `correlations` key is absent but
`correlation_method` is still set to the method label. -/
theorem correlation_skip_amended (numericCount rowCount survivors : Nat) :
    (numericCount < 2 →
      correlationPassDecision numericCount rowCount survivors =
        { has_correlations := false, correlation_method := none }) ∧
    (2 ≤ numericCount → survivors = 0 →
      (correlationPassDecision numericCount rowCount survivors).has_correlations
        = false ∧
      (correlationPassDecision numericCount rowCount survivors).correlation_method
        = some (if rowCount > CORRELATION_SAMPLE_SIZE then "sampled (n=100000)"
                else "exact")) := by
  constructor
  · intro h
    unfold correlationPassDecision
    rw [if_neg (by omega)]
  · intro h hs
    subst hs
    unfold correlationPassDecision
    rw [if_pos (by omega)]
    refine ⟨show decide ((0 : Nat) > 0 ∧ numericCount > 1) = false from ?_, rfl⟩
    simp

/-- Witness for `correlation_skip_amended` at concrete inputs: a single
numeric column skips everything; two numeric columns with zero survivors
still record the method `"exact"`. -/
theorem correlation_skip_amended_witness :
    (1 < 2 ∧ correlationPassDecision 1 5 3 =
      { has_correlations := false, correlation_method := none }) ∧
    (2 ≤ 2 ∧ (0 : Nat) = 0 ∧
      (correlationPassDecision 2 5 0).has_correlations = false ∧
      (correlationPassDecision 2 5 0).correlation_method =
        some (if 5 > CORRELATION_SAMPLE_SIZE then "sampled (n=100000)"
              else "exact")) := by
  refine ⟨⟨by norm_num, (correlation_skip_amended 1 5 3).1 (by norm_num)⟩,
    by norm_num, rfl, ?_⟩
  exact (correlation_skip_amended 2 5 0).2 (by norm_num) rfl

/-- The zip of a list with itself is the diagonal embedding. -/
theorem zip_self_eq (l : List ℚ) : l.zip l = l.map (fun x => (x, x)) := by
  induction l with
  | nil => rfl
  | cons x t ih => simp [List.zip_cons_cons, ih]

/-- C3, counterexample: for the data columns `a = [1, 1]` (zero variance)
and `b = [1, 2]`, the Pearson matrix's first row — the row of column `a` —
has the null entry on its own diagonal position (numpy's `corrcoef`
produces `NaN = 0/0` there, which `fill_nan(None)` turns into null), so not
every diagonal entry is exactly 1.0. -/
theorem corr_diagonal_counterexample :
    (corrMatrix [("a", [1, 1]), ("b", [1, 2])]).head? =
      some ("a", [("a", (none : Option CorrVal)), ("b", none)]) ∧
    ∀ c : CorrVal, (none : Option CorrVal) ≠ some c := by
  refine ⟨?_, fun c h => Option.noConfusion h⟩
  norm_num [corrMatrix, pearsonEntry, varSum, centeredDot, qmean,
    zip_self_eq, List.zip_cons_cons]

/-- A variance sum is a sum of squares, hence nonnegative. -/
theorem varSum_nonneg (xs : List ℚ) : 0 ≤ varSum xs := by
  unfold varSum centeredDot
  rw [zip_self_eq, List.map_map]
  apply List.sum_nonneg
  intro q hq
  obtain ⟨x, _, rfl⟩ := List.mem_map.mp hq
  exact mul_self_nonneg _

/-- The interpretation of a diagonal entry with nonzero variance is
exactly 1. -/
theorem toReal_diag (v : ℚ) (hv₀ : 0 ≤ v) (hv : v ≠ 0) :
    CorrVal.toReal ⟨v, v, v⟩ = 1 := by
  unfold CorrVal.toReal
  have hvR : (0 : ℝ) < (v : ℝ) := by
    rw [show ((0 : ℝ) = ((0 : ℚ) : ℝ)) by norm_num]
    exact_mod_cast lt_of_le_of_ne hv₀ (Ne.symm hv)
  rw [Real.mul_self_sqrt (le_of_lt hvR), div_self (ne_of_gt hvR)]
  norm_num

/-- A diagonal entry of `corrMatrix` is null when the column's variance sum
is zero, and otherwise the symbolic value `varSum/(√varSum·√varSum)`. -/
theorem corrMatrix_diag (cols : List (String × List ℚ)) (i : Nat)
    (name : String) (xs : List ℚ) (h : cols[i]? = some (name, xs)) :
    ∃ row, (corrMatrix cols)[i]? = some row ∧ row.1 = name ∧
      row.2[i]? = some (name,
        if varSum xs = 0 then none
        else some ⟨varSum xs, varSum xs, varSum xs⟩) := by
  refine ⟨(name, cols.map (fun d => (d.1, pearsonEntry xs d.2))), ?_, rfl, ?_⟩
  · unfold corrMatrix
    rw [List.getElem?_map, h]
    rfl
  · rw [List.getElem?_map, h]
    show some (name, pearsonEntry xs xs) = _
    have : pearsonEntry xs xs =
        if varSum xs = 0 then none
        else some ⟨varSum xs, varSum xs, varSum xs⟩ := by
      unfold pearsonEntry
      by_cases hv : varSum xs = 0
      · rw [if_pos (by rw [hv]; ring), if_pos hv]
      · rw [if_neg (mul_ne_zero hv hv), if_neg hv]
        rfl
    rw [this]

/-- C3, amended: in both the Pearson and the Spearman matrix, the diagonal
entry of every column is null exactly when the column (resp. its rank
transform) has zero variance sum — the division-error case — and otherwise
it is a present entry whose real value is exactly 1.0; no entry holds a
NaN (nulls stand for the division errors). -/
theorem corr_matrix_diagonal (cols : List (String × List ℚ)) (i : Nat)
    (name : String) (xs : List ℚ) (h : cols[i]? = some (name, xs)) :
    (∃ row, (corrMatrix cols)[i]? = some row ∧ row.1 = name ∧
      row.2[i]? = some (name,
        if varSum xs = 0 then none
        else some ⟨varSum xs, varSum xs, varSum xs⟩)) ∧
    (∃ row, (spearmanMatrix cols)[i]? = some row ∧ row.1 = name ∧
      row.2[i]? = some (name,
        if varSum (rankTransform xs) = 0 then none
        else some ⟨varSum (rankTransform xs), varSum (rankTransform xs),
          varSum (rankTransform xs)⟩)) ∧
    (varSum xs ≠ 0 →
      CorrVal.toReal ⟨varSum xs, varSum xs, varSum xs⟩ = 1) ∧
    (varSum (rankTransform xs) ≠ 0 →
      CorrVal.toReal ⟨varSum (rankTransform xs), varSum (rankTransform xs),
        varSum (rankTransform xs)⟩ = 1) := by
  refine ⟨corrMatrix_diag cols i name xs h, ?_, ?_, ?_⟩
  · unfold spearmanMatrix
    apply corrMatrix_diag
    rw [List.getElem?_map, h]
    rfl
  · intro hv
    exact toReal_diag _ (varSum_nonneg xs) hv
  · intro hv
    exact toReal_diag _ (varSum_nonneg (rankTransform xs)) hv

/-- Witness for `corr_matrix_diagonal` at the concrete column
`a = [0, 1]`, whose variance sum `1/2` is nonzero: the diagonal entry is
present and its real value is 1. -/
theorem corr_matrix_diagonal_witness :
    ([(("a" : String), [(0 : ℚ), 1])][0]? = some ("a", [(0 : ℚ), 1])) ∧
    (∃ row, (corrMatrix [("a", [(0 : ℚ), 1])])[0]? = some row ∧
      row.1 = "a" ∧
      row.2[0]? = some ("a",
        if varSum [(0 : ℚ), 1] = 0 then none
        else some ⟨varSum [(0 : ℚ), 1], varSum [(0 : ℚ), 1],
          varSum [(0 : ℚ), 1]⟩)) ∧
    (varSum [(0 : ℚ), 1] ≠ 0 ∧
      CorrVal.toReal ⟨varSum [(0 : ℚ), 1], varSum [(0 : ℚ), 1],
        varSum [(0 : ℚ), 1]⟩ = 1) := by
  have h := corr_matrix_diagonal [("a", [(0 : ℚ), 1])] 0 "a" [(0 : ℚ), 1] rfl
  have hv : varSum [(0 : ℚ), 1] ≠ 0 := by
    norm_num [varSum, centeredDot, qmean, zip_self_eq, List.zip_cons_cons]
  exact ⟨rfl, h.1, hv, h.2.2.1 hv⟩

/-- The "nearest" index for the first quartile is `(n + 1) / 4`. -/
theorem quantileNearestIdx_quarter (n : Nat) :
    quantileNearestIdx (1 / 4) n = (n + 1) / 4 := by
  unfold quantileNearestIdx
  have harg : (1 / 4 : ℚ) * ((n : ℚ) - 1) + 1 / 2 =
      ((n + 1 : ℕ) : ℚ) / ((4 : ℕ) : ℚ) := by
    push_cast
    ring
  rw [harg, Nat.floor_div_eq_div]

/-- The "nearest" index for the third quartile is `(3n - 1) / 4` on a
nonempty column. -/
theorem quantileNearestIdx_threequarter (n : Nat) (hn : 1 ≤ n) :
    quantileNearestIdx (3 / 4) n = (3 * n - 1) / 4 := by
  unfold quantileNearestIdx
  have harg : (3 / 4 : ℚ) * ((n : ℚ) - 1) + 1 / 2 =
      ((3 * n - 1 : ℕ) : ℚ) / ((4 : ℕ) : ℚ) := by
    push_cast [Nat.cast_sub (show 1 ≤ 3 * n by omega)]
    ring
  rw [harg, Nat.floor_div_eq_div]

/-- The order-statistics chain on an arbitrary nonempty sorted list: the
head, the two "nearest" quantile positions, the linear-interpolation
median, and the last element are all present and ascending. -/
theorem sorted_stats_chain (s : List ℚ) (hsort : s.Sorted (· ≤ ·))
    (hn : 1 ≤ s.length) :
    ∃ m q₁ q₂ q₃ M,
      s.head? = some m ∧
      s[quantileNearestIdx (1 / 4) s.length]? = some q₁ ∧
      (s.getD ((s.length - 1) / 2) 0 + s.getD (s.length / 2) 0) / 2 = q₂ ∧
      s[quantileNearestIdx (3 / 4) s.length]? = some q₃ ∧
      s.getLast? = some M ∧
      m ≤ q₁ ∧ q₁ ≤ q₂ ∧ q₂ ≤ q₃ ∧ q₃ ≤ M := by
  generalize hN : s.length = n at hn
  have hi25' : (n + 1) / 4 < s.length := by omega
  have himl' : (n - 1) / 2 < s.length := by omega
  have himh' : n / 2 < s.length := by omega
  have hi75' : (3 * n - 1) / 4 < s.length := by omega
  have h0' : 0 < s.length := by omega
  have hlast' : n - 1 < s.length := by omega
  have hmono : ∀ (i j : Nat) (hi : i < s.length) (hj : j < s.length),
      i ≤ j → s.get ⟨i, hi⟩ ≤ s.get ⟨j, hj⟩ := by
    intro i j hi hj hij
    exact hsort.rel_get_of_le (by exact hij)
  refine ⟨s.get ⟨0, h0'⟩, s.get ⟨(n + 1) / 4, hi25'⟩,
    (s.get ⟨(n - 1) / 2, himl'⟩ + s.get ⟨n / 2, himh'⟩) / 2,
    s.get ⟨(3 * n - 1) / 4, hi75'⟩, s.get ⟨n - 1, hlast'⟩,
    ?_, ?_, ?_, ?_, ?_, ?_, ?_, ?_, ?_⟩
  · rw [List.head?_eq_getElem?, List.getElem?_eq_getElem h0',
      List.get_eq_getElem]
  · rw [quantileNearestIdx_quarter, List.getElem?_eq_getElem hi25',
      List.get_eq_getElem]
  · rw [List.getD_eq_getElem?_getD, List.getD_eq_getElem?_getD,
      List.getElem?_eq_getElem himl', List.getElem?_eq_getElem himh',
      List.get_eq_getElem, List.get_eq_getElem]
    rfl
  · rw [quantileNearestIdx_threequarter n hn,
      List.getElem?_eq_getElem hi75', List.get_eq_getElem]
  · rw [List.getLast?_eq_getElem?]
    simp only [hN]
    rw [List.getElem?_eq_getElem (show n - 1 < s.length from hlast'),
      List.get_eq_getElem]
  · exact hmono 0 _ h0' hi25' (by omega)
  · have ha : s.get ⟨(n + 1) / 4, hi25'⟩ ≤ s.get ⟨(n - 1) / 2, himl'⟩ :=
      hmono _ _ hi25' himl' (by omega)
    have hb : s.get ⟨(n - 1) / 2, himl'⟩ ≤ s.get ⟨n / 2, himh'⟩ :=
      hmono _ _ himl' himh' (by omega)
    linarith
  · have ha : s.get ⟨n / 2, himh'⟩ ≤ s.get ⟨(3 * n - 1) / 4, hi75'⟩ :=
      hmono _ _ himh' hi75' (by omega)
    have hb : s.get ⟨(n - 1) / 2, himl'⟩ ≤ s.get ⟨n / 2, himh'⟩ :=
      hmono _ _ himl' himh' (by omega)
    linarith
  · exact hmono _ _ hi75' hlast' (by omega)

/-- C9: for every numeric column, either the column is fully null and all
five order statistics are absent, or all are present and satisfy
`min ≤ p25 ≤ p50 ≤ p75 ≤ max`. -/
theorem scalar_quantile_order (xs : List (Option ℚ)) :
    (nonNullValues xs = [] ∧
      numericScalarStats xs = ⟨none, none, none, none, none⟩) ∨
    (∃ m q₁ q₂ q₃ M, nonNullValues xs ≠ [] ∧
      numericScalarStats xs = ⟨some m, some q₁, some q₂, some q₃, some M⟩ ∧
      m ≤ q₁ ∧ q₁ ≤ q₂ ∧ q₂ ≤ q₃ ∧ q₃ ≤ M) := by
  by_cases hnil : nonNullValues xs = []
  · left
    refine ⟨hnil, ?_⟩
    unfold numericScalarStats sortedVals
    rw [hnil]
    rfl
  · right
    have hn : 1 ≤ (sortedVals xs).length := by
      rw [show (sortedVals xs).length = (nonNullValues xs).length from
        (List.perm_insertionSort _ _).length_eq]
      exact List.length_pos.mpr hnil
    obtain ⟨m, q₁, q₂, q₃, M, hm, h1, h2, h3, hM, c1, c2, c3, c4⟩ :=
      sorted_stats_chain (sortedVals xs) (List.sorted_insertionSort _ _) hn
    refine ⟨m, q₁, q₂, q₃, M, hnil, ?_, c1, c2, c3, c4⟩
    show ({ minVal := (sortedVals xs).head?
          , p25 := (sortedVals xs)[quantileNearestIdx (1 / 4)
              (sortedVals xs).length]?
          , p50 :=
              if (sortedVals xs).length = 0 then none
              else some (((sortedVals xs).getD
                  (((sortedVals xs).length - 1) / 2) 0 +
                (sortedVals xs).getD ((sortedVals xs).length / 2) 0) / 2)
          , p75 := (sortedVals xs)[quantileNearestIdx (3 / 4)
              (sortedVals xs).length]?
          , maxVal := (sortedVals xs).getLast? } : NumericScalarStats) = _
    rw [hm, h1, h3, hM, if_neg (by omega), h2]

/-- Looking a value up after one grouping step: the bumped value gains one
on its previous count (zero if new), other values are untouched. -/
theorem addSeen_lookup (acc : List (Option String × Nat))
    (v u : Option String) :
    lookupCount (addSeen acc v) u =
      if u = v then some ((lookupCount acc v).getD 0 + 1)
      else lookupCount acc u := by
  induction acc with
  | nil =>
    by_cases h : u = v
    · rw [if_pos h]
      show (if v = u then some 1 else none) = some (0 + 1)
      rw [if_pos h.symm]
    · rw [if_neg h]
      show (if v = u then some 1 else none) = none
      rw [if_neg (fun hh => h hh.symm)]
  | cons p rest ih =>
    obtain ⟨w, c⟩ := p
    by_cases hwv : w = v
    · subst hwv
      have ha : addSeen ((w, c) :: rest) w = (w, c + 1) :: rest := by
        show (if w = w then (w, c + 1) :: rest else _) = _
        rw [if_pos rfl]
      rw [ha]
      have hcw : lookupCount ((w, c) :: rest) w = some c := by
        show (if w = w then some c else _) = _
        rw [if_pos rfl]
      by_cases huw : u = w
      · subst huw
        rw [if_pos rfl, hcw]
        show (if u = u then some (c + 1) else _) = _
        rw [if_pos rfl]
        rfl
      · rw [if_neg huw]
        show (if w = u then some (c + 1) else lookupCount rest u) =
          (if w = u then some c else lookupCount rest u)
        rw [if_neg (fun hh => huw hh.symm), if_neg (fun hh => huw hh.symm)]
    · have ha : addSeen ((w, c) :: rest) v = (w, c) :: addSeen rest v := by
        show (if w = v then _ else (w, c) :: addSeen rest v) = _
        rw [if_neg hwv]
      rw [ha]
      have hlw : lookupCount ((w, c) :: rest) v = lookupCount rest v := by
        show (if w = v then some c else _) = _
        rw [if_neg hwv]
      by_cases huw : u = w
      · have hwu : w = u := huw.symm
        have huv : ¬ u = v := fun hh => hwv (hwu.trans hh)
        rw [if_neg huv]
        show (if w = u then some c else lookupCount (addSeen rest v) u) =
          lookupCount ((w, c) :: rest) u
        rw [if_pos hwu]
        show some c = (if w = u then some c else lookupCount rest u)
        rw [if_pos hwu]
      · show (if w = u then some c else lookupCount (addSeen rest v) u) = _
        rw [if_neg (fun hh => huw hh.symm), ih, hlw]
        by_cases huv : u = v
        · rw [if_pos huv, if_pos huv]
        · rw [if_neg huv, if_neg huv]
          show lookupCount rest u =
            (if w = u then some c else lookupCount rest u)
          rw [if_neg (fun hh => huw hh.symm)]

/-- The group keys after one grouping step: unchanged for an existing
value, an appended key for a new one. -/
theorem addSeen_keys (acc : List (Option String × Nat))
    (v : Option String) :
    (addSeen acc v).map Prod.fst =
      if v ∈ acc.map Prod.fst then acc.map Prod.fst
      else acc.map Prod.fst ++ [v] := by
  induction acc with
  | nil => simp [addSeen]
  | cons p rest ih =>
    obtain ⟨w, c⟩ := p
    by_cases hwv : w = v
    · subst hwv
      have ha : addSeen ((w, c) :: rest) w = (w, c + 1) :: rest := by
        show (if w = w then (w, c + 1) :: rest else _) = _
        rw [if_pos rfl]
      rw [ha, if_pos (by simp)]
      simp
    · have ha : addSeen ((w, c) :: rest) v = (w, c) :: addSeen rest v := by
        show (if w = v then _ else (w, c) :: addSeen rest v) = _
        rw [if_neg hwv]
      have hvw : ¬ v = w := fun hh => hwv hh.symm
      rw [ha, List.map_cons, List.map_cons, ih]
      by_cases hv : v ∈ rest.map Prod.fst
      · rw [if_pos hv, if_pos (by simp [List.mem_cons, hv])]
      · rw [if_neg hv, if_neg (by simp [List.mem_cons, hv, hvw]),
          List.cons_append]

/-- The group keys of a grouping accumulator stay pairwise distinct. -/
theorem addSeen_keys_nodup (acc : List (Option String × Nat))
    (v : Option String) (h : (acc.map Prod.fst).Nodup) :
    ((addSeen acc v).map Prod.fst).Nodup := by
  rw [addSeen_keys]
  by_cases hv : v ∈ acc.map Prod.fst
  · rw [if_pos hv]; exact h
  · rw [if_neg hv]
    refine List.Nodup.append h (List.nodup_singleton v) ?_
    intro a ha hb
    rw [List.mem_singleton] at hb
    subst hb
    exact hv ha

/-- The group keys of `valueCounts` are pairwise distinct. -/
theorem valueCounts_keys_nodup (xs : List (Option String)) :
    ((valueCounts xs).map Prod.fst).Nodup :=
  List.foldlRecOn (motive := fun acc => (acc.map Prod.fst).Nodup) xs addSeen
    [] List.nodup_nil (fun acc hacc v _ => addSeen_keys_nodup acc v hacc)

/-- In an accumulator with distinct keys, membership determines the
lookup. -/
theorem lookupCount_of_mem (l : List (Option String × Nat))
    (hnd : (l.map Prod.fst).Nodup) (e : Option String × Nat) (he : e ∈ l) :
    lookupCount l e.1 = some e.2 := by
  induction l with
  | nil => cases he
  | cons p rest ih =>
    obtain ⟨w, c⟩ := p
    rcases List.mem_cons.mp he with rfl | hrest
    · show (if w = w then some c else _) = _
      rw [if_pos rfl]
    · have hnd' : (w :: rest.map Prod.fst).Nodup := by
        simpa using hnd
      have hw : ¬ w = e.1 := by
        intro hh
        exact (List.nodup_cons.mp hnd').1
          (hh ▸ List.mem_map.mpr ⟨e, hrest, rfl⟩)
      show (if w = e.1 then some c else lookupCount rest e.1) = _
      rw [if_neg hw]
      exact ih (by simpa using (List.nodup_cons.mp hnd').2) hrest

/-- Folding the grouping over a column adds each value's occurrence count
to whatever the accumulator held for it. -/
theorem foldl_addSeen_lookup (xs : List (Option String)) :
    ∀ (acc : List (Option String × Nat)) (v : Option String),
      lookupCount (xs.foldl addSeen acc) v =
        if v ∈ xs then some ((lookupCount acc v).getD 0 + xs.count v)
        else lookupCount acc v := by
  induction xs with
  | nil => intro acc v; simp
  | cons x rest ih =>
    intro acc v
    rw [List.foldl_cons, ih]
    by_cases hvx : v = x
    · subst hvx
      have hbump : lookupCount (addSeen acc v) v =
          some ((lookupCount acc v).getD 0 + 1) := by
        rw [addSeen_lookup, if_pos rfl]
      by_cases hvr : v ∈ rest
      · rw [if_pos hvr, hbump, if_pos (List.mem_cons_self v rest),
          List.count_cons_self, Option.getD_some]
        congr 1
        omega
      · rw [if_neg hvr, hbump, if_pos (List.mem_cons_self v rest),
          List.count_cons_self, List.count_eq_zero.mpr hvr]
    · have hkeep : lookupCount (addSeen acc x) v = lookupCount acc v := by
        rw [addSeen_lookup, if_neg hvx]
      have hmem : v ∈ x :: rest ↔ v ∈ rest := by
        constructor
        · intro h
          rcases List.mem_cons.mp h with h | h
          · exact absurd h hvx
          · exact h
        · exact List.mem_cons_of_mem x
      have hcnt : (x :: rest).count v = rest.count v := by
        rw [List.count_cons_of_ne hvx]
      by_cases hvr : v ∈ rest
      · rw [if_pos hvr, if_pos (hmem.mpr hvr), hkeep, hcnt]
      · rw [if_neg hvr, if_neg (fun hh => hvr (hmem.mp hh)), hkeep]

/-- The lookup over `valueCounts` is exactly the occurrence count. -/
theorem valueCounts_lookup (xs : List (Option String))
    (v : Option String) :
    lookupCount (valueCounts xs) v =
      if v ∈ xs then some (xs.count v) else none := by
  unfold valueCounts
  rw [foldl_addSeen_lookup]
  by_cases hv : v ∈ xs
  · rw [if_pos hv, if_pos hv]
    show some (0 + xs.count v) = some (xs.count v)
    rw [Nat.zero_add]
  · rw [if_neg hv, if_neg hv]
    rfl

/-- Every row of `valueCounts` pairs a value occurring in the column with
its exact occurrence count. -/
theorem mem_valueCounts (xs : List (Option String))
    (e : Option String × Nat) (he : e ∈ valueCounts xs) :
    e.2 = xs.count e.1 ∧ e.1 ∈ xs := by
  have h₁ : lookupCount (valueCounts xs) e.1 = some e.2 :=
    lookupCount_of_mem _ (valueCounts_keys_nodup xs) e he
  rw [valueCounts_lookup] at h₁
  by_cases hv : e.1 ∈ xs
  · rw [if_pos hv] at h₁
    exact ⟨(Option.some_injective _ h₁).symm, hv⟩
  · rw [if_neg hv] at h₁
    cases h₁

/-- The descending count comparison is transitive. -/
theorem countDescLe_trans : ∀ a b c : Option String × Nat,
    countDescLe a b → countDescLe b c → countDescLe a c := by
  intro a b c hab hbc
  simp only [countDescLe, decide_eq_true_eq] at *
  omega

/-- The descending count comparison is total. -/
theorem countDescLe_total : ∀ a b : Option String × Nat,
    countDescLe a b || countDescLe b a := by
  intro a b
  simp only [countDescLe]
  by_cases h : b.2 ≤ a.2
  · simp [h]
  · simp [le_of_not_le h]

/-- C5, counterexample: for the column `["u", "v"]` (both values occurring
once) the reversed table `[("v", 1), ("u", 1)]` is an admissible output of
the top-K plan — it is `head(2)` of a count-descending arrangement of the
group rows — yet it does not list the tied values in first-seen order
(`valueCounts` enumerates `("u", 1)` first).  The engine therefore does
not guarantee the claimed first-seen tie-breaking: both `group_by` and
`sort` are called with `maintain_order` left `False`. -/
theorem top_k_tie_order_counterexample :
    IsTopKOutcome 2 [some "u", some "v"]
      [((some "v" : Option String), 1), (some "u", 1)] ∧
    valueCounts [some "u", some "v"] = [(some "u", 1), (some "v", 1)] ∧
    [((some "v" : Option String), 1), (some "u", 1)] ≠
      [(some "u", 1), (some "v", 1)] := by
  refine ⟨⟨[(some "v", 1), (some "u", 1)], ?_, by decide, rfl⟩, by decide,
    by decide⟩
  have hvc : valueCounts [some "u", some "v"] =
      [(some "u", 1), (some "v", 1)] := by decide
  rw [hvc]
  exact List.Perm.swap _ _ _

/-- C5, amended: every admissible collected top-K table of a column — and
at least one exists for every column — has at most `k` rows, is ordered
descending by count, pairs each of its (string-cast, possibly null) values
with its exact occurrence count, and leaves out no distinct value whose
count exceeds that of any kept row.  The relative order of rows with equal
counts is unspecified (`maintain_order` is left `False` on both `group_by`
and `sort`). -/
theorem top_k_outcome_spec (k : Nat) (xs : List (Option String)) :
    (∃ result, IsTopKOutcome k xs result) ∧
    (∀ result, IsTopKOutcome k xs result →
      result.length ≤ k ∧
      result.Pairwise (fun a b => b.2 ≤ a.2) ∧
      (∀ e ∈ result, e.2 = xs.count e.1 ∧ e.1 ∈ xs) ∧
      (∀ e ∈ valueCounts xs, e ∉ result → ∀ e' ∈ result, e.2 ≤ e'.2)) := by
  constructor
  · refine ⟨(List.mergeSort (valueCounts xs) countDescLe).take k,
      List.mergeSort (valueCounts xs) countDescLe,
      List.mergeSort_perm _ _, ?_, rfl⟩
    refine List.Pairwise.imp ?_
      (List.sorted_mergeSort countDescLe_trans countDescLe_total _)
    intro a b h
    simpa [countDescLe] using h
  · rintro result ⟨sorted, hperm, hpw, rfl⟩
    refine ⟨?_, hpw.sublist (List.take_sublist _ _), ?_, ?_⟩
    · rw [List.length_take]
      exact min_le_left _ _
    · intro e he
      exact mem_valueCounts xs e
        (hperm.mem_iff.mp (List.mem_of_mem_take he))
    · intro e he hnot e' he'
      have hmem : e ∈ sorted := hperm.mem_iff.mpr he
      have hsplit : sorted = sorted.take k ++ sorted.drop k :=
        (List.take_append_drop k _).symm
      have hdrop : e ∈ sorted.drop k := by
        rcases List.mem_append.mp (hsplit ▸ hmem) with h | h
        · exact absurd h hnot
        · exact h
      have hpw' := hsplit ▸ hpw
      exact (List.pairwise_append.mp hpw').2.2 e' he' e hdrop

/-- Witness for `top_k_outcome_spec`: the first-seen arrangement of the
two singleton groups of `["u", "v"]` is an admissible outcome, and the
theorem yields its exact counts. -/
theorem top_k_outcome_spec_witness :
    IsTopKOutcome 2 [some "u", some "v"]
      [((some "u" : Option String), 1), (some "v", 1)] ∧
    ∀ e ∈ [((some "u" : Option String), 1), (some "v", 1)],
      e.2 = [some "u", some "v"].count e.1 ∧ e.1 ∈ [some "u", some "v"] := by
  have hout : IsTopKOutcome 2 [some "u", some "v"]
      [((some "u" : Option String), 1), (some "v", 1)] := by
    refine ⟨[(some "u", 1), (some "v", 1)], ?_, by decide, rfl⟩
    rw [show valueCounts [some "u", some "v"] =
      [(some "u", 1), (some "v", 1)] from by decide]
  exact ⟨hout,
    ((top_k_outcome_spec 2 [some "u", some "v"]).2 _ hout).2.2.1⟩

/-- Folding list appends from an accumulator is a flat map. -/
theorem foldl_append_eq_flatMap {α β : Type} (f : α → List β) (l : List α) :
    ∀ acc, l.foldl (fun acc c => acc ++ f c) acc = acc ++ l.flatMap f := by
  induction l with
  | nil => intro acc; simp
  | cons c rest ih =>
    intro acc
    rw [List.foldl_cons, ih, List.flatMap_cons, List.append_assoc]

/-- C6: the complex-type preprocessor is a schema-only transform whose
output schema is exactly the spec's wording — struct fields become
`{parent}_{field}` columns (so a zero-field struct is silently dropped),
sequence columns become integer `{name}_len` columns, everything else
passes through — and per row the `_len` column holds the element count of
the row's sequence while a pass-through column holds the row's value
unchanged. -/
theorem preprocess_complex_types_spec (schema : List (String × PDType)) :
    outSchema schema = specSchemaTransform schema ∧
    (∀ name, columnExprs (name, PDType.tstruct []) = []) ∧
    (∀ (name : String) (row : String → PVal) (elems : List PVal),
      row name = .plist elems →
      PExpr.eval row (.listLen name) = .pint elems.length) ∧
    (∀ (name : String) (dt : PDType) (row : String → PVal),
      PExpr.eval row (.passthrough name dt) = row name) := by
  refine ⟨?_, fun name => rfl, ?_, fun name dt row => rfl⟩
  · have hp : ∀ sch : List (String × PDType),
        preprocess_complex_types sch = sch.flatMap columnExprs := by
      intro sch
      unfold preprocess_complex_types
      rw [foldl_append_eq_flatMap]
      rfl
    unfold outSchema
    rw [hp]
    induction schema with
    | nil => rfl
    | cons c rest ih =>
      rw [List.flatMap_cons, List.map_append, ih]
      show _ = specSchemaTransform (c :: rest)
      unfold specSchemaTransform
      rw [List.flatMap_cons]
      show _ = _ ++ specSchemaTransform rest
      congr 1
      obtain ⟨nm, dt⟩ := c
      cases dt <;>
        simp [columnExprs, List.map_map, Function.comp, PExpr.outName,
          PExpr.outType]
  · intro name row elems hrow
    show (match row name with
      | PVal.plist elems => PVal.pint elems.length
      | _ => PVal.pnull) = PVal.pint elems.length
    rw [hrow]

/-- Witness for `preprocess_complex_types_spec`: on a row whose column `c`
holds a two-element list, the generated `c_len` expression evaluates
to 2. -/
theorem preprocess_complex_types_spec_witness :
    ((fun _ : String => PVal.plist [PVal.pint 1, PVal.pint 2]) "c" =
      PVal.plist [PVal.pint 1, PVal.pint 2]) ∧
    PExpr.eval (fun _ => PVal.plist [PVal.pint 1, PVal.pint 2])
      (PExpr.listLen "c") = PVal.pint 2 := by
  refine ⟨rfl, ?_⟩
  exact (preprocess_complex_types_spec []).2.2.1 "c"
    (fun _ => PVal.plist [PVal.pint 1, PVal.pint 2])
    [PVal.pint 1, PVal.pint 2] rfl

end NetraProfiler
